/- Verification of libdwarfpp's call-frame-information decoding (src/frame.cpp)
   against its natural-language specification.

   The C++ source is shallowly embedded.  Byte cursors over a bounded range
   become a `List Nat` of bytes together with a position (or the suffix from
   the cursor onwards); machine integers become `Nat`/`Int` with explicit
   reductions mod 2^16 / 2^64 exactly where the source narrows or wraps;
   failed `assert`s become error values; and C++ undefined behaviour
   (signed-integer overflow, oversized shifts, out-of-bounds reads,
   dereferencing an empty `boost::optional`) becomes a distinguished error
   value of its own.  All definitions are executable so that concrete byte
   streams can be evaluated inside proofs. -/
import Mathlib

namespace Dwarfpp

/-- Failure modes of the primitive byte readers (frame.cpp:65-183): a failed
`assert` bounds check, or C++ undefined behaviour (a shift of an `int` by 32
or more bits, a shifted value reaching 2^31, a read past the limit with no
bounds check at all). -/
inductive ReadErr where
  | assertFail
  | undefinedBehavior
deriving DecidableEq, Repr

/-- Failure modes of the decoder and interpreter: a failed `assert`,
undefined behaviour, dereferencing an empty `boost::optional`, and exhaustion
of the explicit recursion fuel that models the source's cursor-driven
`while (pos < limit)` loop. -/
inductive Err where
  | assertFail
  | undefinedBehavior
  | emptyOptionalDeref
  | fuelExhausted
deriving DecidableEq, Repr

def ReadErr.toErr : ReadErr → Err
  | .assertFail => .assertFail
  | .undefinedBehavior => .undefinedBehavior

/-- `read_uleb128` (frame.cpp:65-80), inner loop.  The source accumulates
`working |= ((**cur) & ~0x80) << (7 * n7bits)` where the shifted operand has
type `int` (32 bits): a shift count of 32 or more, or a shifted value
reaching 2^31, is undefined behaviour and is modelled as
`ReadErr.undefinedBehavior`.  The `assert(*cur < limit)` bounds check fails
on an empty suffix.  `n7bits` is the index of the current byte relative to
the start of the read; the returned second component is the total number of
bytes consumed. -/
def read_uleb128_go (n7bits : Nat) (working : Nat) : List Nat → Except ReadErr (Nat × Nat)
  | [] => .error .assertFail
  | b0 :: rest =>
    let b := b0 &&& 0xff
    if 32 ≤ 7 * n7bits then .error .undefinedBehavior
    else if 2 ^ 31 ≤ (b &&& 0x7f) <<< (7 * n7bits) then .error .undefinedBehavior
    else
      let working := working ||| ((b &&& 0x7f) <<< (7 * n7bits))
      if b &&& 0x80 ≠ 0 then read_uleb128_go (n7bits + 1) working rest
      else .ok (working, n7bits + 1)

/-- `read_uleb128` (frame.cpp:65-80) on the byte suffix starting at the
cursor; returns the decoded value and the number of bytes consumed. -/
def read_uleb128 (bytes : List Nat) : Except ReadErr (Nat × Nat) :=
  read_uleb128_go 0 0 bytes

/-- `read_sleb128` (frame.cpp:81-106), inner loop plus the final
sign-extension step.  Same 32-bit `int` shift hazards as `read_uleb128_go`.
The sign-extension step `if (nbits_read < 64 && byte_read >= 0x80)` tests the
last byte read, whose high (continuation) bit is necessarily clear when the
loop has exited, so the branch can never be taken; it is embedded verbatim
nonetheless.  `-(1 << nbits_read)` is an `int` shift and is undefined
behaviour for `nbits_read ≥ 31`. -/
def read_sleb128_go (n7bits : Nat) (working : Int) : List Nat → Except ReadErr (Int × Nat)
  | [] => .error .assertFail
  | b0 :: rest =>
    let b := b0 &&& 0xff
    if 32 ≤ 7 * n7bits then .error .undefinedBehavior
    else if 2 ^ 31 ≤ (b &&& 0x7f) <<< (7 * n7bits) then .error .undefinedBehavior
    else
      let working := Int.lor working (((b &&& 0x7f) <<< (7 * n7bits) : Nat) : Int)
      if b &&& 0x80 ≠ 0 then read_sleb128_go (n7bits + 1) working rest
      else
        let nbits_read := 7 * (n7bits + 1)
        if nbits_read < 64 ∧ 0x80 ≤ b then
          if 31 ≤ nbits_read then .error .undefinedBehavior
          else .ok (Int.lor working (-((1 <<< nbits_read : Nat) : Int)), n7bits + 1)
        else .ok (working, n7bits + 1)

/-- `read_sleb128` (frame.cpp:81-106) on the byte suffix starting at the
cursor; returns the decoded value and the number of bytes consumed. -/
def read_sleb128 (bytes : List Nat) : Except ReadErr (Int × Nat) :=
  read_sleb128_go 0 0 bytes

/-- `read_2byte_le` (frame.cpp:131-138): two bytes, little-endian; the
`assert(*cur <= limit)` bounds check fails if fewer than two bytes remain. -/
def read_2byte_le : List Nat → Except ReadErr (Nat × Nat)
  | b0 :: b1 :: _ => .ok ((b0 &&& 0xff) ||| ((b1 &&& 0xff) <<< 8), 2)
  | _ => .error .assertFail

/-- `read_2byte_be` (frame.cpp:163-170). -/
def read_2byte_be : List Nat → Except ReadErr (Nat × Nat)
  | b0 :: b1 :: _ => .ok (((b0 &&& 0xff) <<< 8) ||| (b1 &&& 0xff), 2)
  | _ => .error .assertFail

/-- `read_4byte_le` (frame.cpp:121-130). -/
def read_4byte_le : List Nat → Except ReadErr (Nat × Nat)
  | b0 :: b1 :: b2 :: b3 :: _ =>
    .ok ((b0 &&& 0xff) ||| ((b1 &&& 0xff) <<< 8) ||| ((b2 &&& 0xff) <<< 16) |||
         ((b3 &&& 0xff) <<< 24), 4)
  | _ => .error .assertFail

/-- `read_4byte_be` (frame.cpp:153-162). -/
def read_4byte_be : List Nat → Except ReadErr (Nat × Nat)
  | b0 :: b1 :: b2 :: b3 :: _ =>
    .ok (((b0 &&& 0xff) <<< 24) ||| ((b1 &&& 0xff) <<< 16) ||| ((b2 &&& 0xff) <<< 8) |||
         (b3 &&& 0xff), 4)
  | _ => .error .assertFail

/-- `read_8byte_le` (frame.cpp:107-120). -/
def read_8byte_le : List Nat → Except ReadErr (Nat × Nat)
  | b0 :: b1 :: b2 :: b3 :: b4 :: b5 :: b6 :: b7 :: _ =>
    .ok ((b0 &&& 0xff) ||| ((b1 &&& 0xff) <<< 8) ||| ((b2 &&& 0xff) <<< 16) |||
         ((b3 &&& 0xff) <<< 24) ||| ((b4 &&& 0xff) <<< 32) ||| ((b5 &&& 0xff) <<< 40) |||
         ((b6 &&& 0xff) <<< 48) ||| ((b7 &&& 0xff) <<< 56), 8)
  | _ => .error .assertFail

/-- `read_8byte_be` (frame.cpp:139-152). -/
def read_8byte_be : List Nat → Except ReadErr (Nat × Nat)
  | b0 :: b1 :: b2 :: b3 :: b4 :: b5 :: b6 :: b7 :: _ =>
    .ok (((b0 &&& 0xff) <<< 56) ||| ((b1 &&& 0xff) <<< 48) ||| ((b2 &&& 0xff) <<< 40) |||
         ((b3 &&& 0xff) <<< 32) ||| ((b4 &&& 0xff) <<< 24) ||| ((b5 &&& 0xff) <<< 16) |||
         ((b6 &&& 0xff) <<< 8) ||| (b7 &&& 0xff), 8)
  | _ => .error .assertFail

/-- `read_addr` (frame.cpp:172-183).  `host_little` stands for
`srk31::host_is_little_endian()`; `read_be = host_is_little_endian() ^
use_host_byte_order` selects the big-endian readers.  The leading
`assert(addrlen == 4 || addrlen == 8)` fails for any other width. -/
def read_addr (addrlen : Nat) (host_little use_host : Bool) (bytes : List Nat) :
    Except ReadErr (Nat × Nat) :=
  if addrlen = 4 ∨ addrlen = 8 then
    let read_be := host_little ^^ use_host
    if read_be ∧ addrlen = 4 then read_4byte_be bytes
    else if read_be ∧ addrlen = 8 then read_8byte_be bytes
    else if ¬ read_be ∧ addrlen = 4 then read_4byte_le bytes
    else read_8byte_le bytes
  else .error .assertFail

/- DWARF CFI opcode constants (values from dwarf.h, used by frame.cpp). -/
def DW_CFA_advance_loc : Nat := 0x40
def DW_CFA_offset : Nat := 0x80
def DW_CFA_restore : Nat := 0xc0
def DW_CFA_nop : Nat := 0x00
def DW_CFA_set_loc : Nat := 0x01
def DW_CFA_advance_loc1 : Nat := 0x02
def DW_CFA_advance_loc2 : Nat := 0x03
def DW_CFA_advance_loc4 : Nat := 0x04
def DW_CFA_offset_extended : Nat := 0x05
def DW_CFA_restore_extended : Nat := 0x06
def DW_CFA_undefined : Nat := 0x07
def DW_CFA_same_value : Nat := 0x08
def DW_CFA_register : Nat := 0x09
def DW_CFA_remember_state : Nat := 0x0a
def DW_CFA_restore_state : Nat := 0x0b
def DW_CFA_def_cfa : Nat := 0x0c
def DW_CFA_def_cfa_register : Nat := 0x0d
def DW_CFA_def_cfa_offset : Nat := 0x0e
def DW_CFA_def_cfa_expression : Nat := 0x0f
def DW_CFA_expression : Nat := 0x10
def DW_CFA_offset_extended_sf : Nat := 0x11
def DW_CFA_def_cfa_sf : Nat := 0x12
def DW_CFA_def_cfa_offset_sf : Nat := 0x13
def DW_CFA_val_offset : Nat := 0x14
def DW_CFA_val_offset_sf : Nat := 0x15
def DW_CFA_val_expression : Nat := 0x16

/-- The reserved pseudo-register number standing for the CFA itself
(libdwarf's `DW_FRAME_CFA_COL3`). -/
def DW_FRAME_CFA_COL3 : Nat := 1436

/-- Reduction to `Dwarf_Unsigned` (64-bit unsigned), applied where the source
converts or wraps. -/
def toU64 (i : Int) : Nat := (i % ((2 ^ 64 : Nat) : Int)).toNat

/-- Reduction to `Dwarf_Half` (16-bit unsigned), applied where a ULEB128
register number is stored into `Dwarf_Frame_Op3::fp_register`. -/
def toU16 (n : Nat) : Nat := n % 2 ^ 16

/-- One decoded CFI instruction: libdwarf's `Dwarf_Frame_Op3` as populated by
`frame_instrlist::frame_instrlist` (frame.cpp:186-319) and wrapped as
`frame_instr` (expr.hpp:246).  `fp_register` is a `Dwarf_Half`,
`fp_offset_or_block_len` a `Dwarf_Unsigned`.  `fp_expr_block` holds the raw
bytes of an opcode-encoded expression block (a pointer into the instruction
stream in the source).  `fp_instr_offset` is never assigned by the decoder
and stays at its zero initialisation. -/
structure frame_instr where
  fp_base_op : Nat
  fp_extended_op : Nat
  fp_register : Nat
  fp_offset_or_block_len : Nat
  fp_expr_block : Option (List Nat)
  fp_instr_offset : Nat
deriving DecidableEq, Repr

/-- The interpreter's dispatch key `fp_base_op << 6 | fp_extended_op`
(frame.cpp:363). -/
def instrKey (i : frame_instr) : Nat := i.fp_base_op <<< 6 ||| i.fp_extended_op

/-- Decoding of the operands of one CFI instruction, given the (masked)
opcode byte `b` and the byte suffix `rest` following it
(frame.cpp:194-312).  Returns the decoded `frame_instr` and the number of
operand bytes consumed after the opcode byte.  Mirrors the source's
`switch` on `opcode_from_byte(b)`, including the missing `break` after
`DW_CFA_advance_loc4`, which falls through into the
`uleb128_register_only` handler and reads an extra ULEB128 into
`fp_register`.  The `DW_CFA_advance_loc1` case is the source's unchecked
`*pos++`, undefined behaviour when the cursor is at the limit. -/
def decode_args (daf : Int) (addrlen : Nat) (host_little use_host : Bool)
    (b : Nat) (rest : List Nat) : Except ReadErr (frame_instr × Nat) :=
  let base_op := b >>> 6
  let ext_op := if base_op = 0 then b &&& 0x3f else 0
  let k := if b &&& 0xc0 ≠ 0 then b &&& 0xc0 else b
  let mk : Nat → Nat → Option (List Nat) → Nat → frame_instr × Nat :=
    fun reg off blk consumed => (⟨base_op, ext_op, reg, off, blk, 0⟩, consumed)
  if k = DW_CFA_advance_loc then .ok (mk 0 (b &&& 0x3f) none 0)
  else if k = DW_CFA_offset then
    match read_uleb128 rest with
    | .ok (v, c) => .ok (mk (b &&& 0x3f) (toU64 (daf * (v : Int))) none c)
    | .error e => .error e
  else if k = DW_CFA_restore then .ok (mk (b &&& 0x3f) 0 none 0)
  else if k = DW_CFA_nop ∨ k = DW_CFA_remember_state ∨ k = DW_CFA_restore_state then
    .ok (mk 0 0 none 0)
  else if k = DW_CFA_set_loc then
    match read_addr addrlen host_little use_host rest with
    | .ok (v, c) => .ok (mk 0 v none c)
    | .error e => .error e
  else if k = DW_CFA_advance_loc1 then
    match rest with
    | b1 :: _ => .ok (mk 0 (b1 &&& 0xff) none 1)
    | [] => .error .undefinedBehavior
  else if k = DW_CFA_advance_loc2 then
    match (if (!host_little) ^^ use_host then read_2byte_le rest else read_2byte_be rest) with
    | .ok (v, c) => .ok (mk 0 v none c)
    | .error e => .error e
  else if k = DW_CFA_advance_loc4 then
    match (if (!host_little) ^^ use_host then read_4byte_le rest else read_4byte_be rest) with
    | .ok (v, c) =>
      match read_uleb128 (rest.drop c) with
      | .ok (r, c2) => .ok (mk (toU16 r) v none (c + c2))
      | .error e => .error e
    | .error e => .error e
  else if k = DW_CFA_restore_extended ∨ k = DW_CFA_undefined ∨ k = DW_CFA_same_value ∨
          k = DW_CFA_def_cfa_register then
    match read_uleb128 rest with
    | .ok (r, c) => .ok (mk (toU16 r) 0 none c)
    | .error e => .error e
  else if k = DW_CFA_offset_extended ∨ k = DW_CFA_register then
    match read_uleb128 rest with
    | .ok (r, c) =>
      match read_uleb128 (rest.drop c) with
      | .ok (v, c2) => .ok (mk (toU16 r) (toU64 (daf * (v : Int))) none (c + c2))
      | .error e => .error e
    | .error e => .error e
  else if k = DW_CFA_def_cfa then
    match read_uleb128 rest with
    | .ok (r, c) =>
      match read_uleb128 (rest.drop c) with
      | .ok (v, c2) => .ok (mk (toU16 r) v none (c + c2))
      | .error e => .error e
    | .error e => .error e
  else if k = DW_CFA_offset_extended_sf ∨ k = DW_CFA_def_cfa_sf then
    match read_uleb128 rest with
    | .ok (r, c) =>
      match read_sleb128 (rest.drop c) with
      | .ok (v, c2) => .ok (mk (toU16 r) (toU64 (daf * v)) none (c + c2))
      | .error e => .error e
    | .error e => .error e
  else if k = DW_CFA_def_cfa_offset then
    match read_uleb128 rest with
    | .ok (v, c) => .ok (mk 0 v none c)
    | .error e => .error e
  else if k = DW_CFA_def_cfa_offset_sf then
    match read_sleb128 rest with
    | .ok (v, c) => .ok (mk 0 (toU64 (daf * v)) none c)
    | .error e => .error e
  else if k = DW_CFA_expression ∨ k = DW_CFA_val_expression then
    match read_uleb128 rest with
    | .ok (r, c) =>
      match read_uleb128 (rest.drop c) with
      | .ok (len, c2) =>
        .ok (mk (toU16 r) len (some ((rest.drop (c + c2)).take len)) (c + c2 + len))
      | .error e => .error e
    | .error e => .error e
  else if k = DW_CFA_def_cfa_expression then
    match read_uleb128 rest with
    | .ok (len, c) => .ok (mk 0 len (some ((rest.drop c).take len)) (c + len))
    | .error e => .error e
  else if k = DW_CFA_val_offset then
    match read_uleb128 rest with
    | .ok (r, c) =>
      match read_sleb128 (rest.drop c) with
      | .ok (v, c2) => .ok (mk (toU16 r) (toU64 (daf * v)) none (c + c2))
      | .error e => .error e
    | .error e => .error e
  else if k = DW_CFA_val_offset_sf then
    match read_uleb128 rest with
    | .ok (r, c) =>
      match read_uleb128 (rest.drop c) with
      | .ok (v, c2) => .ok (mk (toU16 r) (toU64 (daf * (v : Int))) none (c + c2))
      | .error e => .error e
    | .error e => .error e
  else .error .assertFail

/-- One iteration of the decoding loop (frame.cpp:192-318): read the opcode
byte at `pos`, decode its operands, and return the decoded instruction
together with the new cursor position. -/
def decode_one (daf : Int) (addrlen : Nat) (host_little use_host : Bool)
    (bytes : List Nat) (pos : Nat) : Except Err (frame_instr × Nat) :=
  match bytes[pos]? with
  | none => .error .assertFail
  | some b0 =>
    match decode_args daf addrlen host_little use_host (b0 &&& 0xff) (bytes.drop (pos + 1)) with
    | .ok (i, consumed) => .ok (i, pos + 1 + consumed)
    | .error e => .error e.toErr

/-- The decoding loop `while (pos < limit)` of
`frame_instrlist::frame_instrlist` (frame.cpp:192-318), with an explicit
fuel bounding the number of iterations.  The loop exits as soon as the
cursor reaches or passes the limit. -/
def frame_instrlist_aux (daf : Int) (addrlen : Nat) (host_little use_host : Bool)
    (bytes : List Nat) : Nat → Nat → Except Err (List frame_instr)
  | 0, pos => if pos < bytes.length then .error .fuelExhausted else .ok []
  | fuel + 1, pos =>
    if pos < bytes.length then
      match decode_one daf addrlen host_little use_host bytes pos with
      | .ok (i, pos1) =>
        match frame_instrlist_aux daf addrlen host_little use_host bytes fuel pos1 with
        | .ok restInstrs => .ok (i :: restInstrs)
        | .error e => .error e
      | .error e => .error e
    else .ok []

/-- `frame_instrlist::frame_instrlist` (frame.cpp:186-319): decode a whole
instruction byte range.  Every iteration consumes at least the opcode byte,
so `bytes.length` iterations of fuel always suffice (proved below). -/
def frame_instrlist (daf : Int) (addrlen : Nat) (host_little use_host : Bool)
    (bytes : List Nat) : Except Err (List frame_instr) :=
  frame_instrlist_aux daf addrlen host_little use_host bytes bytes.length 0

instance {ε α : Type} [DecidableEq ε] [DecidableEq α] : DecidableEq (Except ε α)
  | .ok a, .ok b =>
    if h : a = b then .isTrue (by rw [h]) else .isFalse (by intro hh; cases hh; exact h rfl)
  | .ok _, .error _ => .isFalse (by intro hh; cases hh)
  | .error _, .ok _ => .isFalse (by intro hh; cases hh)
  | .error a, .error b =>
    if h : a = b then .isTrue (by rw [h]) else .isFalse (by intro hh; cases hh; exact h rfl)

/-- The kind tag of a register rule (`register_def::k` in the source; the
spec's RegisterDef variants). -/
inductive rd_kind where
  | UNDEFINED
  | SAME_VALUE
  | REGISTER
  | SAVED_AT_OFFSET_FROM_CFA
  | SAVED_AT_EXPR
  | VAL_IS_OFFSET_FROM_CFA
  | VAL_OF_EXPR
deriving DecidableEq, Repr

/-- Modelled from the spec: the register-rule record `register_def` is
declared in frame.hpp, which is not among the sources; only its use sites in
frame.cpp are.  Per the spec's data model (RegisterDef tagged variant) and
its design note that the source realises this as an ad-hoc mutable-field
struct with manual kind bookkeeping, it is modelled as a kind tag `k` plus
one payload field per rule kind.  Fields persist across kind changes: the
writer accessors `*_w()` seen in frame.cpp set `k` and return a reference to
their own field only, and `register_plus_offset_w().first/.second` update one
half of the pair while the other half keeps its previous (possibly
value-initialised) contents.  The `loc_expr` payloads are built by an
`encap::loc_expr` constructor that decodes a raw byte block (expr.cpp, also
not among the sources); since no use site here inspects the decoded
instructions, those payloads are modelled as the raw byte block itself. -/
structure register_def where
  k : rd_kind
  register_plus_offset : Nat × Nat
  saved_at_offset_from_cfa : Nat
  saved_at_expr : List Nat
  val_is_offset_from_cfa : Nat
  val_of_expr : List Nat
deriving DecidableEq, Repr

/-- A value-initialised `register_def`: what `map::operator[]` creates for
an absent key before a writer accessor runs, and also what the aggregate
`(register_def) { .k = register_def::UNDEFINED }` (frame.cpp:472) denotes. -/
def rdDefault : register_def :=
  ⟨.UNDEFINED, (0, 0), 0, [], 0, []⟩

/-- `std::map<int, register_def>` as a key-sorted association list. -/
def mapLookup (r : Nat) : List (Nat × register_def) → Option register_def
  | [] => none
  | (a, d) :: rest => if a = r then some d else mapLookup r rest

def mapInsert (r : Nat) (d : register_def) :
    List (Nat × register_def) → List (Nat × register_def)
  | [] => [(r, d)]
  | (a, e) :: rest =>
    if r < a then (r, d) :: (a, e) :: rest
    else if r = a then (r, d) :: rest
    else (a, e) :: mapInsert r d rest

/-- Lexicographic order on `List Nat`, used below to order expression-block
payloads. -/
def listNatLt : List Nat → List Nat → Bool
  | [], [] => false
  | [], _ :: _ => true
  | _ :: _, [] => false
  | a :: as, b :: bs => a < b || (a == b && listNatLt as bs)

def rdKindIdx : rd_kind → Nat
  | .UNDEFINED => 0
  | .SAME_VALUE => 1
  | .REGISTER => 2
  | .SAVED_AT_OFFSET_FROM_CFA => 3
  | .SAVED_AT_EXPR => 4
  | .VAL_IS_OFFSET_FROM_CFA => 5
  | .VAL_OF_EXPR => 6

/-- Modelled from the spec: a strict total order on `register_def`, standing
for the `operator<` that frame.hpp (not among the sources) must supply for
`std::set<std::pair<int, register_def>>`.  Any strict total order gives the
same set membership semantics; a full lexicographic field comparison is used
so that order-equivalence coincides with structural equality. -/
def rdLt (a b : register_def) : Bool :=
  rdKindIdx a.k < rdKindIdx b.k ||
  (rdKindIdx a.k == rdKindIdx b.k &&
    (a.register_plus_offset.1 < b.register_plus_offset.1 ||
     (a.register_plus_offset.1 == b.register_plus_offset.1 &&
      (a.register_plus_offset.2 < b.register_plus_offset.2 ||
       (a.register_plus_offset.2 == b.register_plus_offset.2 &&
        (a.saved_at_offset_from_cfa < b.saved_at_offset_from_cfa ||
         (a.saved_at_offset_from_cfa == b.saved_at_offset_from_cfa &&
          (listNatLt a.saved_at_expr b.saved_at_expr ||
           (a.saved_at_expr == b.saved_at_expr &&
            (a.val_is_offset_from_cfa < b.val_is_offset_from_cfa ||
             (a.val_is_offset_from_cfa == b.val_is_offset_from_cfa &&
              listNatLt a.val_of_expr b.val_of_expr)))))))))))

/-- `std::pair<int, register_def>::operator<`: lexicographic, first component
first. -/
def ruleLt (a b : Nat × register_def) : Bool :=
  a.1 < b.1 || (a.1 == b.1 && rdLt a.2 b.2)

/-- A `std::set<std::pair<int, register_def>>` as a `ruleLt`-sorted
duplicate-free list.  A set built from `current_row_defs` is the association
list itself (a key-sorted map with unique keys is already such a set). -/
abbrev RuleSet := List (Nat × register_def)

def setInsert (x : Nat × register_def) : RuleSet → RuleSet
  | [] => [x]
  | y :: rest =>
    if ruleLt x y then x :: y :: rest
    else if x = y then y :: rest
    else y :: setInsert x rest

/-- Set union, the aggregation `boost::icl` applies to a
`std::set` codomain where added intervals overlap existing ones. -/
def setUnion (s t : RuleSet) : RuleSet :=
  t.foldl (fun acc x => setInsert x acc) s

/-- `boost::icl::interval_map<Dwarf_Addr, set<pair<int, register_def>>>` as a
sorted list of disjoint right-open intervals with their aggregated values. -/
abbrev RowTable := List ((Nat × Nat) × RuleSet)

/-- Insertion step of `interval_map::operator+=`: splice the right-open
interval [lo, hi) carrying value `s` into the sorted disjoint segment list,
aggregating by set union where it overlaps existing segments. -/
def iclAddSeg : RowTable → Nat → Nat → RuleSet → RowTable
  | [], lo, hi, s => [((lo, hi), s)]
  | ((a, b), v) :: rest, lo, hi, s =>
    if hi ≤ a then ((lo, hi), s) :: ((a, b), v) :: rest
    else if b ≤ lo then ((a, b), v) :: iclAddSeg rest lo hi s
    else
      let pre : RowTable :=
        if lo < a then [((lo, a), s)] else if a < lo then [((a, lo), v)] else []
      let mid := ((max a lo, min b hi), setUnion v s)
      if hi ≤ b then
        let post : RowTable := if hi < b then [((hi, b), v)] else []
        pre ++ mid :: post ++ rest
      else pre ++ mid :: iclAddSeg rest b hi s

/-- Joining step of a `boost::icl::interval_map` (the joining flavour):
adjacent touching segments carrying equal values are fused.  `acc` is the
already-joined prefix in reverse order. -/
def joinPush (acc : RowTable) (seg : (Nat × Nat) × RuleSet) : RowTable :=
  match acc with
  | ((a, b), v) :: accRest =>
    if b = seg.1.1 ∧ v = seg.2 then ((a, seg.1.2), v) :: accRest else seg :: acc
  | [] => [seg]

def joinSegs (l : RowTable) : RowTable :=
  (l.foldl joinPush []).reverse

/-- `working += make_pair(interval<Dwarf_Addr>::right_open(lo, hi), s)`:
`boost::icl::interval_map` addition.  An empty interval, or an identity
(empty-set) value, is absorbed and leaves the map unchanged. -/
def iclAdd (m : RowTable) (lo hi : Nat) (s : RuleSet) : RowTable :=
  if lo < hi ∧ s ≠ [] then joinSegs (iclAddSeg m lo hi s) else m

/-- `interval_map::find(addr)`: the segment whose interval contains `addr`,
if any. -/
def iclFind (rows : RowTable) (addr : Nat) : Option ((Nat × Nat) × RuleSet) :=
  rows.find? (fun seg => seg.1.1 ≤ addr && addr < seg.1.2)

/-- `std::map<int, register_def>` built from a set range
(frame.cpp:456): `map::insert` keeps the first occurrence of each key, so
duplicated register numbers resolve to the first (least, in set order)
definition. -/
def mapFromSet (s : RuleSet) : List (Nat × register_def) :=
  s.foldl
    (fun m rd => match mapLookup rd.1 m with
      | some _ => m
      | none => mapInsert rd.1 rd.2 m) []

/-- `Fde::instrs_results` (the pair `{ working, current_row_defs }` built at
frame.cpp:500 and returned at frame.cpp:517): the committed interval map and
the still-unfinished row. -/
structure instrs_results where
  rows : RowTable
  unfinished_row : List (Nat × register_def)
deriving DecidableEq, Repr

/-- The mutable state threaded through `Fde::decode`'s interpreter lambda
(frame.cpp:326-495): the committed interval map `working`, the current row's
register-rule table, the current row start address, and the
remember/restore stack (the latter is local to each run of the lambda). -/
structure InterpState where
  working : RowTable
  current_row_defs : List (Nat × register_def)
  current_row_addr : Nat
  remembered_row_defs : List (List (Nat × register_def))
deriving DecidableEq, Repr

/-- The `add_new_row` block (frame.cpp:375-385): assert the new address is
strictly greater, snapshot the current table as a set, and add the old row's
interval to `working`.  The source never assigns `current_row_addr` here (or
anywhere after its initialisation at frame.cpp:341), so the row origin stays
put; the embedding reproduces that. -/
def addNewRow (s : InterpState) (new_row_addr : Nat) : Except Err InterpState :=
  if s.current_row_addr < new_row_addr then
    .ok { s with working := iclAdd s.working s.current_row_addr new_row_addr s.current_row_defs }
  else .error .assertFail

/-- Modelled from the spec: the writer accessors of `register_def`
(frame.hpp, not among the sources) as used throughout frame.cpp's
interpreter: each sets the kind tag and assigns its own payload field,
leaving every other field as it was. -/
def register_plus_offset_w (d : register_def) (v : Nat × Nat) : register_def :=
  { d with k := .REGISTER, register_plus_offset := v }

def saved_at_offset_from_cfa_w (d : register_def) (v : Nat) : register_def :=
  { d with k := .SAVED_AT_OFFSET_FROM_CFA, saved_at_offset_from_cfa := v }

def saved_at_expr_w (d : register_def) (e : List Nat) : register_def :=
  { d with k := .SAVED_AT_EXPR, saved_at_expr := e }

def val_is_offset_from_cfa_w (d : register_def) (v : Nat) : register_def :=
  { d with k := .VAL_IS_OFFSET_FROM_CFA, val_is_offset_from_cfa := v }

def val_of_expr_w (d : register_def) (e : List Nat) : register_def :=
  { d with k := .VAL_OF_EXPR, val_of_expr := e }

def undefined_w (d : register_def) : register_def := { d with k := .UNDEFINED }

def same_value_w (d : register_def) : register_def := { d with k := .SAME_VALUE }

/-- `current_row_defs[r]` on the right of an assignment: `map::operator[]`
yields the existing entry or a value-initialised one. -/
def mapGetD (m : List (Nat × register_def)) (r : Nat) : register_def :=
  (mapLookup r m).getD rdDefault

/-- `current_row_defs[r] = d`: store a rule into the current row's table. -/
def setDef (s : InterpState) (r : Nat) (d : register_def) : InterpState :=
  { s with current_row_defs := mapInsert r d s.current_row_defs }

/-- One step of the interpreter `switch` (frame.cpp:363-491), dispatching on
`fp_base_op << 6 | fp_extended_op`.  `initial` is the
`initial_instrs_results` optional captured by the lambda; the
restore/restore_extended handler dereferences it unconditionally
(frame.cpp:441), undefined behaviour when it is empty. -/
def stepInstr (initial : Option instrs_results) (i : frame_instr) (s : InterpState) :
    Except Err InterpState :=
  if instrKey i = DW_CFA_set_loc then addNewRow s i.fp_offset_or_block_len
  else if instrKey i = DW_CFA_advance_loc ∨ instrKey i = DW_CFA_advance_loc1 ∨
          instrKey i = DW_CFA_advance_loc2 ∨ instrKey i = DW_CFA_advance_loc4 then
    addNewRow s ((s.current_row_addr + i.fp_offset_or_block_len) % 2 ^ 64)
  else if instrKey i = DW_CFA_def_cfa ∨ instrKey i = DW_CFA_def_cfa_sf then
    .ok (setDef s DW_FRAME_CFA_COL3
          (register_plus_offset_w (mapGetD s.current_row_defs DW_FRAME_CFA_COL3)
            (i.fp_register, i.fp_offset_or_block_len)))
  else if instrKey i = DW_CFA_def_cfa_register then
    match mapLookup DW_FRAME_CFA_COL3 s.current_row_defs with
    | none => .error .assertFail
    | some old =>
      .ok (setDef s DW_FRAME_CFA_COL3
            (register_plus_offset_w old (i.fp_register, old.register_plus_offset.2)))
  else if instrKey i = DW_CFA_def_cfa_offset ∨ instrKey i = DW_CFA_def_cfa_offset_sf then
    match mapLookup DW_FRAME_CFA_COL3 s.current_row_defs with
    | none => .error .assertFail
    | some old =>
      .ok (setDef s DW_FRAME_CFA_COL3
            (register_plus_offset_w old (old.register_plus_offset.1, i.fp_offset_or_block_len)))
  else if instrKey i = DW_CFA_def_cfa_expression then
    .ok (setDef s DW_FRAME_CFA_COL3
          (saved_at_expr_w (mapGetD s.current_row_defs DW_FRAME_CFA_COL3)
            (i.fp_expr_block.getD [])))
  else if instrKey i = DW_CFA_undefined then
    .ok (setDef s i.fp_register (undefined_w (mapGetD s.current_row_defs i.fp_register)))
  else if instrKey i = DW_CFA_same_value then
    .ok (setDef s i.fp_register (same_value_w (mapGetD s.current_row_defs i.fp_register)))
  else if instrKey i = DW_CFA_offset ∨ instrKey i = DW_CFA_offset_extended ∨
          instrKey i = DW_CFA_offset_extended_sf then
    .ok (setDef s i.fp_register
          (saved_at_offset_from_cfa_w (mapGetD s.current_row_defs i.fp_register)
            i.fp_offset_or_block_len))
  else if instrKey i = DW_CFA_val_offset ∨ instrKey i = DW_CFA_val_offset_sf then
    .ok (setDef s i.fp_register
          (val_is_offset_from_cfa_w (mapGetD s.current_row_defs i.fp_register)
            i.fp_offset_or_block_len))
  else if instrKey i = DW_CFA_register then
    .ok (setDef s i.fp_register
          (register_plus_offset_w (mapGetD s.current_row_defs i.fp_register)
            (i.fp_offset_or_block_len, 0)))
  else if instrKey i = DW_CFA_expression then
    .ok (setDef s i.fp_register
          (saved_at_expr_w (mapGetD s.current_row_defs i.fp_register) (i.fp_expr_block.getD [])))
  else if instrKey i = DW_CFA_val_expression then
    .ok (setDef s i.fp_register
          (val_of_expr_w (mapGetD s.current_row_defs i.fp_register) (i.fp_expr_block.getD [])))
  else if instrKey i = DW_CFA_restore ∨ instrKey i = DW_CFA_restore_extended then
    match initial with
    | none => .error .emptyOptionalDeref
    | some init =>
      let opt_previous_def : Option register_def :=
        match mapLookup i.fp_register init.unfinished_row with
        | some d => some d
        | none =>
          match iclFind init.rows s.current_row_addr with
          | some found_row => mapLookup i.fp_register (mapFromSet found_row.2)
          | none => none
      match opt_previous_def with
      | some d => .ok (setDef s i.fp_register d)
      | none => .ok (setDef s i.fp_register rdDefault)
  else if instrKey i = DW_CFA_restore_state then
    match s.remembered_row_defs with
    | [] => .error .assertFail
    | d :: rest => .ok { s with current_row_defs := d, remembered_row_defs := rest }
  else if instrKey i = DW_CFA_remember_state then
    .ok { s with remembered_row_defs := s.current_row_defs :: s.remembered_row_defs }
  else if instrKey i = DW_CFA_nop then .ok s
  else .error .assertFail

/-- The interpreter's `for` loop over the decoded instruction list
(frame.cpp:360-492). -/
def interpList (initial : Option instrs_results) :
    List frame_instr → InterpState → Except Err InterpState
  | [], s => .ok s
  | i :: rest, s =>
    match stepInstr initial i s with
    | .ok s1 => interpList initial rest s1
    | .error e => .error e

/-- One run of the interpreter lambda (frame.cpp:343-495): decode the byte
range with `frame_instrlist` (called with the hard-coded address length and
byte-order arguments of frame.cpp:350 supplied by the caller), reset the
local remember/restore stack, overwrite `current_row_defs` from the initial
snapshot if one is supplied, and interpret each instruction. -/
def interp (daf : Int) (addrlen : Nat) (host_little use_host : Bool)
    (instrs_bytes : List Nat) (initial : Option instrs_results) (s : InterpState) :
    Except Err InterpState :=
  match frame_instrlist daf addrlen host_little use_host instrs_bytes with
  | .error e => .error e
  | .ok il =>
    interpList initial il
      { s with
        current_row_defs :=
          match initial with
          | some r => r.unfinished_row
          | none => s.current_row_defs,
        remembered_row_defs := [] }

/-- `Fde::decode` (frame.cpp:323-518): interpret the CIE initial
instructions with an empty initial snapshot, save the results, clear the
table, interpret the FDE instructions against that snapshot, and finally
commit any unfinished row over [current_row_addr, low_pc + func_length)
after asserting that interval is non-degenerate.  `daf` is the CIE's data
alignment factor; the inner `frame_instrlist` calls use the source's
hard-coded address length 8 and `use_host_byte_order = true`. -/
def Fde.decode (daf : Int) (host_little : Bool) (cie_bytes fde_bytes : List Nat)
    (low len : Nat) : Except Err instrs_results :=
  match interp daf 8 host_little true cie_bytes none ⟨[], [], low, []⟩ with
  | .error e => .error e
  | .ok s1 =>
    let initial : instrs_results := ⟨s1.working, s1.current_row_defs⟩
    match interp daf 8 host_little true fde_bytes (some initial)
            { s1 with current_row_defs := [] } with
    | .error e => .error e
    | .ok s2 =>
      if s2.current_row_defs ≠ [] then
        if s2.current_row_addr < (low + len) % 2 ^ 64 then
          .ok ⟨iclAdd s2.working s2.current_row_addr ((low + len) % 2 ^ 64)
                 s2.current_row_defs, []⟩
        else .error .assertFail
      else .ok ⟨s2.working, []⟩

/-- One location-expression instruction (`Dwarf_Loc` / `encap::expr_instr`,
expr.hpp:44). -/
structure expr_instr where
  lr_atom : Nat
  lr_number : Nat
  lr_number2 : Nat
  lr_offset : Nat
deriving DecidableEq, Repr

/-- `encap::loc_expr` (expr.hpp:54): an instruction sequence plus its
validity range. -/
structure loc_expr where
  expr : List expr_instr
  lopc : Nat
  hipc : Nat
deriving DecidableEq, Repr

/-- `encap::loclist` (expr.hpp:206). -/
abbrev loclist := List loc_expr

/-- `rewrite_loclist_in_terms_of_cfa` (frame.cpp:526-652).  The rewrite is
unimplemented in the source: the function body builds an edge map, then ends
in `return l; // FIXME` with the comment `// FIXME: now do the rewrites and
coalesce`.  With no containing intervals the loop never runs and the input
loclist is returned unchanged.  With at least one interval, the first
iteration enters `if (!current)` (nothing assigned `current` yet), calls
`fs.find_fde_for_pc` on the interval's lower bound, asserts the lookup
succeeded, and then executes `*current = *found` — dereferencing the
still-empty `boost::optional<Fde> current`, which is undefined behaviour, so
control never reaches the `return`.  The frame section is abstracted to its
`find_fde_for_pc` lookup; its result is never legitimately consumed. -/
def rewrite_loclist_in_terms_of_cfa {Fde : Type} (l : loclist)
    (find_fde_for_pc : Nat → Option Fde)
    (containing_intervals : List (Nat × Nat)) (_opt_fbreg : Option loclist) :
    Except Err loclist :=
  match containing_intervals with
  | [] => .ok l
  | (lo, _hi) :: _ =>
    match find_fde_for_pc lo with
    | none => .error .assertFail
    | some _ => .error .emptyOptionalDeref

/-- The committed ranges of a row table exactly partition [low, low+len):
every address of the interval lies in exactly one committed range, and every
committed range is a non-degenerate sub-interval of it — the spec's
"no gaps and no overlaps" coverage property. -/
def rowsPartition (rows : RowTable) (low len : Nat) : Prop :=
  (∀ x : Nat, low ≤ x → x < low + len →
    (rows.countP fun seg => decide (seg.1.1 ≤ x ∧ x < seg.1.2)) = 1) ∧
  ∀ seg ∈ rows, low ≤ seg.1.1 ∧ seg.1.1 < seg.1.2 ∧ seg.1.2 ≤ low + len

/-- The standard ULEB128 encoding (the spec side of the round-trip claim):
low seven bits per byte, high bit as continuation flag.  Fuel-bounded for
structural recursion; ten bytes cover any 64-bit value. -/
def uleb_encode_go : Nat → Nat → List Nat
  | 0, _ => []
  | fuel + 1, n =>
    if n < 0x80 then [n] else (0x80 ||| (n &&& 0x7f)) :: uleb_encode_go fuel (n >>> 7)

def uleb_encode (n : Nat) : List Nat := uleb_encode_go 10 n

/-- The standard SLEB128 encoding (the spec side of the round-trip claim).
`n % 128` extracts the low seven two's-complement bits; the loop stops once
the remaining value is pure sign extension of the sign bit just emitted. -/
def sleb_encode_go : Nat → Int → List Nat
  | 0, _ => []
  | fuel + 1, n =>
    let b : Nat := (n % 128).toNat
    let n1 : Int := (n - n % 128) / 128
    if (n1 = 0 ∧ b &&& 0x40 = 0) ∨ (n1 = -1 ∧ b &&& 0x40 ≠ 0) then [b]
    else (0x80 ||| b) :: sleb_encode_go fuel n1

def sleb_encode (n : Int) : List Nat := sleb_encode_go 10 n

/-- The rule "CFA = register 7 + 8" as committed by the interpreter. -/
def rp78 : register_def :=
  { rdDefault with k := .REGISTER, register_plus_offset := (7, 8) }

/-- The rule "CFA = register 7 + 16" as committed by the interpreter. -/
def rp716 : register_def :=
  { rdDefault with k := .REGISTER, register_plus_offset := (7, 16) }

/-- C1: the claim says the committed ranges of every successfully decoded
FDE's row table exactly partition [low_pc, low_pc + func_length).  The code
violates it: `current_row_addr` is initialised once (frame.cpp:341) and
never advanced when a row is committed, so every committed range starts at
low_pc and the final unfinished-row commit's `assert(low_pc + func_length >
current_row_addr)` (frame.cpp:509) cannot catch rows running past the end of
the function.  Concretely, a CIE of `def_cfa(7, 8)` and an FDE of
`advance_loc(8)` with func_length 4 decode successfully to a single
committed range [0, 8), which is not contained in [0, 4). -/
theorem row_table_coverage_bug :
    Fde.decode 1 true [0x0c, 0x07, 0x08] [0x48] 0 4
      = .ok ⟨[((0, 8), [(DW_FRAME_CFA_COL3, rp78)])], []⟩ ∧
    ¬ rowsPartition [((0, 8), [(DW_FRAME_CFA_COL3, rp78)])] 0 4 := by
  refine ⟨by decide, fun h => ?_⟩
  have hseg := (h.2 ((0, 8), [(DW_FRAME_CFA_COL3, rp78)]) (List.mem_singleton.mpr rfl)).2.2
  norm_num at hseg

/-- C2: the spec's example — CIE with data-alignment factor 1 defining
CFA = reg7+8, FDE of `advance_loc(4)` then `def_cfa_offset(16)` — must yield
rows [low, low+4) ↦ CFA = reg7+8 and [low+4, low+len) ↦ CFA = reg7+16.
Because the code never advances `current_row_addr` after committing a row
(frame.cpp:375-385), the final unfinished-row commit spans [low, low+len)
instead of [low+4, low+len); the interval map aggregates the overlap by set
union, leaving the first range carrying BOTH rules CFA = reg7+8 and
CFA = reg7+16 (at low = 0, len = 8 below). -/
theorem decode_two_rows_example_bug :
    Fde.decode 1 true [0x0c, 0x07, 0x08] [0x44, 0x0e, 0x10] 0 8
      = .ok ⟨[((0, 4), [(DW_FRAME_CFA_COL3, rp78), (DW_FRAME_CFA_COL3, rp716)]),
              ((4, 8), [(DW_FRAME_CFA_COL3, rp716)])], []⟩ ∧
    [((0, 4), [(DW_FRAME_CFA_COL3, rp78), (DW_FRAME_CFA_COL3, rp716)]),
     ((4, 8), [(DW_FRAME_CFA_COL3, rp716)])]
      ≠ [((0, 4), [(DW_FRAME_CFA_COL3, rp78)]), ((4, 8), [(DW_FRAME_CFA_COL3, rp716)])] := by
  exact ⟨by decide, by decide⟩

/-- C3: the claim says LEB128 encode-then-decode restores every 64-bit
value.  Two refutations at concrete inputs: (a) the SLEB128 encoding of -1
is the single byte 0x7f, but `read_sleb128` returns +127 — its
sign-extension step tests `byte_read >= 0x80` on the final byte, whose
continuation bit is necessarily clear, so it never sign-extends; (b) the
ULEB128 encoding of 2^31 decodes to undefined behaviour, because the
accumulation shift is performed at `int` width (the fifth byte contributes
`8 << 28`, overflowing a signed 32-bit int). -/
theorem leb128_roundtrip_bug :
    sleb_encode (-1) = [0x7f] ∧
    read_sleb128 [0x7f] = .ok (127, 1) ∧ (127 : Int) ≠ -1 ∧
    uleb_encode (2 ^ 31) = [0x80, 0x80, 0x80, 0x80, 0x08] ∧
    read_uleb128 [0x80, 0x80, 0x80, 0x80, 0x08] = .error .undefinedBehavior := by
  refine ⟨by decide, by decide, by decide, by decide, by decide⟩

/-- C4: the claim says `DW_CFA_advance_loc4` consumes exactly the opcode
byte plus a fixed 4-byte operand and leaves the register field 0.  The
source's `case DW_CFA_advance_loc4:` has no `break` and falls through into
the `uleb128_register_only` handler, so it additionally consumes a ULEB128
and stores it in `fp_register`: the six-byte stream below decodes to a
single instruction with register 127 instead of an advance_loc4 (register 0,
five bytes) followed by a second instruction. -/
theorem advance_loc4_fallthrough_bug :
    frame_instrlist 1 8 true true [0x04, 0x04, 0x00, 0x00, 0x00, 0x7f]
      = .ok [⟨0, DW_CFA_advance_loc4, 0x7f, 4, none, 0⟩] := by
  decide

/-- C5: the claim says the rewriter turns `breg7(-8)` under a row with
CFA = reg7+8 into an expression computing CFA - 16.  The source's
`rewrite_loclist_in_terms_of_cfa` never rewrites anything: its body ends in
`return l; // FIXME`, and for any non-empty interval set it dereferences the
empty `boost::optional<Fde> current` before reaching that return.  At the
claim's scenario (a breg7(-8) expression valid on [0, 8)) the call is
undefined behaviour, and with no intervals it returns the input unchanged —
in neither case a CFA-relative expression.  DW_OP_breg7 is opcode 0x77 and
the operand -8 is the Dwarf_Unsigned 2^64 - 8. -/
theorem rewrite_breg7_cfa_bug :
    rewrite_loclist_in_terms_of_cfa
        [⟨[⟨0x77, 2 ^ 64 - 8, 0, 0⟩], 0, 8⟩] (fun _ => some ()) [(0, 8)] none
      = .error .emptyOptionalDeref ∧
    rewrite_loclist_in_terms_of_cfa
        [⟨[⟨0x77, 2 ^ 64 - 8, 0, 0⟩], 0, 8⟩] (fun _ => some ()) [] none
      = .ok [⟨[⟨0x77, 2 ^ 64 - 8, 0, 0⟩], 0, 8⟩] := by
  exact ⟨rfl, rfl⟩

/-- C8: the claim says `def_cfa_register`/`def_cfa_offset` succeed only when
the current CFA definition is RegisterPlusOffset and fail for any other kind.
The code checks only that a CFA entry exists (frame.cpp:394/399, with FIXME
comments admitting the kind check is missing), so after a CIE whose initial
instructions set the CFA by `def_cfa_expression`, an FDE's
`def_cfa_offset(16)` succeeds, silently converting the expression rule into
RegisterPlusOffset(0, 16) built from the value-initialised register field
(the stale expression block remains in the committed record). -/
theorem def_cfa_offset_wrong_kind_bug :
    Fde.decode 1 true [0x0f, 0x01, 0x30] [0x0e, 0x10] 0 4
      = .ok ⟨[((0, 4),
               [(DW_FRAME_CFA_COL3,
                 { rdDefault with k := .REGISTER, register_plus_offset := (0, 16),
                                  saved_at_expr := [0x30] })])], []⟩ := by
  decide

/-- C6: in any interpreter state, a `DW_CFA_remember_state` instruction
followed immediately by a `DW_CFA_restore_state` instruction restores the
exact state (in particular the visible register-rule table): remember pushes
a copy of `current_row_defs` (frame.cpp:481-482), restore-state pops it back
(frame.cpp:477-479), and the pop cannot underflow because the push just
happened. -/
theorem remember_restore_state_noop (initial : Option instrs_results) (s : InterpState)
    (i1 i2 : frame_instr)
    (h1 : instrKey i1 = DW_CFA_remember_state) (h2 : instrKey i2 = DW_CFA_restore_state) :
    (stepInstr initial i1 s >>= stepInstr initial i2) = .ok s := by
  simp [stepInstr, h1, h2, DW_CFA_set_loc, DW_CFA_advance_loc, DW_CFA_advance_loc1,
    DW_CFA_advance_loc2, DW_CFA_advance_loc4, DW_CFA_def_cfa, DW_CFA_def_cfa_sf,
    DW_CFA_def_cfa_register, DW_CFA_def_cfa_offset, DW_CFA_def_cfa_offset_sf,
    DW_CFA_def_cfa_expression, DW_CFA_undefined, DW_CFA_same_value, DW_CFA_offset,
    DW_CFA_offset_extended, DW_CFA_offset_extended_sf, DW_CFA_val_offset,
    DW_CFA_val_offset_sf, DW_CFA_register, DW_CFA_expression, DW_CFA_val_expression,
    DW_CFA_restore, DW_CFA_restore_extended, DW_CFA_restore_state, DW_CFA_remember_state,
    DW_CFA_nop, Bind.bind, Except.bind]

theorem remember_restore_state_noop_witness :
    (stepInstr none ⟨0, 0x0a, 0, 0, none, 0⟩ ⟨[], [(7, rp78)], 0, []⟩ >>=
       stepInstr none ⟨0, 0x0b, 0, 0, none, 0⟩) = .ok ⟨[], [(7, rp78)], 0, []⟩ :=
  remember_restore_state_noop none ⟨[], [(7, rp78)], 0, []⟩ _ _ (by decide) (by decide)

/-- The lookup order the spec prescribes for restore/restore_extended: the
register's rule in the initial snapshot's unfinished row if present,
otherwise its rule in the snapshot's committed rows at the given address if
present, otherwise Undefined (`rdDefault`, whose kind is UNDEFINED). -/
def restore_rule_spec (init : instrs_results) (addr r : Nat) : register_def :=
  match mapLookup r init.unfinished_row with
  | some d => d
  | none =>
    match iclFind init.rows addr with
    | some found_row => (mapLookup r (mapFromSet found_row.2)).getD rdDefault
    | none => rdDefault

/-- C7: during the FDE pass (initial snapshot present), a `DW_CFA_restore`
or `DW_CFA_restore_extended` instruction for register r succeeds — returning
`.ok`, never an error, even when the register is absent from both sources —
and sets r's rule to `restore_rule_spec`: the unfinished-row rule if
present, else the committed-rows-at-current-address rule if present, else
Undefined (frame.cpp:438-475). -/
theorem restore_lookup_rule (init : instrs_results) (s : InterpState) (i : frame_instr)
    (h : instrKey i = DW_CFA_restore ∨ instrKey i = DW_CFA_restore_extended) :
    stepInstr (some init) i s =
      .ok { s with current_row_defs := mapInsert i.fp_register
                                         (restore_rule_spec init s.current_row_addr
                                           i.fp_register)
                                         s.current_row_defs } := by
  rcases h with h | h
  · simp only [DW_CFA_restore] at h
    simp [stepInstr, h, DW_CFA_set_loc, DW_CFA_advance_loc, DW_CFA_advance_loc1,
      DW_CFA_advance_loc2, DW_CFA_advance_loc4, DW_CFA_def_cfa, DW_CFA_def_cfa_sf,
      DW_CFA_def_cfa_register, DW_CFA_def_cfa_offset, DW_CFA_def_cfa_offset_sf,
      DW_CFA_def_cfa_expression, DW_CFA_undefined, DW_CFA_same_value, DW_CFA_offset,
      DW_CFA_offset_extended, DW_CFA_offset_extended_sf, DW_CFA_val_offset,
      DW_CFA_val_offset_sf, DW_CFA_register, DW_CFA_expression, DW_CFA_val_expression,
      DW_CFA_restore, DW_CFA_restore_extended, DW_CFA_restore_state, DW_CFA_remember_state,
      DW_CFA_nop]
    cases hm : mapLookup i.fp_register init.unfinished_row with
    | some d => simp [restore_rule_spec, hm, setDef]
    | none =>
      cases hf : iclFind init.rows s.current_row_addr with
      | some found_row =>
        cases hm2 : mapLookup i.fp_register (mapFromSet found_row.2) <;>
          simp [restore_rule_spec, hm, hf, hm2, setDef]
      | none => simp [restore_rule_spec, hm, hf, setDef]
  · simp only [DW_CFA_restore_extended] at h
    simp [stepInstr, h, DW_CFA_set_loc, DW_CFA_advance_loc, DW_CFA_advance_loc1,
      DW_CFA_advance_loc2, DW_CFA_advance_loc4, DW_CFA_def_cfa, DW_CFA_def_cfa_sf,
      DW_CFA_def_cfa_register, DW_CFA_def_cfa_offset, DW_CFA_def_cfa_offset_sf,
      DW_CFA_def_cfa_expression, DW_CFA_undefined, DW_CFA_same_value, DW_CFA_offset,
      DW_CFA_offset_extended, DW_CFA_offset_extended_sf, DW_CFA_val_offset,
      DW_CFA_val_offset_sf, DW_CFA_register, DW_CFA_expression, DW_CFA_val_expression,
      DW_CFA_restore, DW_CFA_restore_extended, DW_CFA_restore_state, DW_CFA_remember_state,
      DW_CFA_nop]
    cases hm : mapLookup i.fp_register init.unfinished_row with
    | some d => simp [restore_rule_spec, hm, setDef]
    | none =>
      cases hf : iclFind init.rows s.current_row_addr with
      | some found_row =>
        cases hm2 : mapLookup i.fp_register (mapFromSet found_row.2) <;>
          simp [restore_rule_spec, hm, hf, hm2, setDef]
      | none => simp [restore_rule_spec, hm, hf, setDef]

theorem restore_lookup_rule_witness :
    stepInstr (some ⟨[], [(5, rp716)]⟩) ⟨3, 0, 5, 0, none, 0⟩ ⟨[], [], 0, []⟩
      = .ok ⟨[], [(5, rp716)], 0, []⟩ := by
  have h := restore_lookup_rule ⟨[], [(5, rp716)]⟩ ⟨[], [], 0, []⟩
    ⟨3, 0, 5, 0, none, 0⟩ (Or.inl (by decide))
  simpa using h

theorem ReadErr.toErr_cases (r : ReadErr) :
    r.toErr = Err.assertFail ∨ r.toErr = Err.undefinedBehavior := by
  cases r <;> simp [ReadErr.toErr]

theorem decode_one_error (daf : Int) (addrlen : Nat) (hl uh : Bool) (bytes : List Nat)
    (pos : Nat) (e : Err) (h : decode_one daf addrlen hl uh bytes pos = .error e) :
    e = .assertFail ∨ e = .undefinedBehavior := by
  unfold decode_one at h
  split at h
  · cases h; exact Or.inl rfl
  · split at h
    · exact absurd h (by simp)
    · cases h; exact ReadErr.toErr_cases _

theorem decode_one_increase (daf : Int) (addrlen : Nat) (hl uh : Bool) (bytes : List Nat)
    (pos : Nat) (i : frame_instr) (pos1 : Nat)
    (h : decode_one daf addrlen hl uh bytes pos = .ok (i, pos1)) : pos < pos1 := by
  unfold decode_one at h
  split at h
  · exact absurd h (by simp)
  · split at h
    · injection h with h2
      obtain ⟨-, h3⟩ := Prod.mk.injEq .. ▸ h2
      omega
    · exact absurd h (by simp)

theorem frame_instrlist_aux_exit (daf : Int) (addrlen : Nat) (hl uh : Bool)
    (bytes : List Nat) (fuel pos : Nat) (hp : bytes.length ≤ pos) :
    frame_instrlist_aux daf addrlen hl uh bytes fuel pos = .ok [] := by
  cases fuel <;> simp [frame_instrlist_aux, Nat.not_lt.mpr hp]

theorem frame_instrlist_aux_no_fuel (daf : Int) (addrlen : Nat) (hl uh : Bool)
    (bytes : List Nat) :
    ∀ fuel pos, bytes.length ≤ pos + fuel →
      frame_instrlist_aux daf addrlen hl uh bytes fuel pos ≠ .error .fuelExhausted := by
  intro fuel
  induction fuel with
  | zero =>
    intro pos hp
    simp [frame_instrlist_aux, Nat.not_lt.mpr (by omega : bytes.length ≤ pos)]
  | succ n ih =>
    intro pos hp hcontra
    rw [frame_instrlist_aux] at hcontra
    split at hcontra
    · split at hcontra
      · rename_i i1 pos1 heq
        split at hcontra
        · exact absurd hcontra (by simp)
        · rename_i e heq2
          injection hcontra with h2
          subst h2
          have hlt := decode_one_increase daf addrlen hl uh bytes pos i1 pos1 heq
          exact ih pos1 (by omega) heq2
      · rename_i e heq
        injection hcontra with h2
        subst h2
        rcases decode_one_error daf addrlen hl uh bytes pos _ heq with h3 | h3 <;> cases h3
    · exact absurd hcontra (by simp)

/-- C9: decoding terminates on every input byte range: (a) every successful
iteration of the decoding loop strictly advances the cursor (at least the
opcode byte is consumed, and malformed block lengths only move the cursor
further forward); (b) the loop exits — returning the empty suffix — as soon
as the cursor reaches or passes the limit; (c) consequently a fuel of
`bytes.length` iterations is never exhausted: `frame_instrlist` cannot
return the fuel-exhaustion marker, on any input whatsoever (reads that fail
their bounds checks abort the decode with an error instead of looping). -/
theorem frame_instrlist_terminates :
    (∀ (daf : Int) (addrlen : Nat) (hl uh : Bool) (bytes : List Nat) (pos : Nat)
       (i : frame_instr) (pos1 : Nat),
       decode_one daf addrlen hl uh bytes pos = .ok (i, pos1) → pos < pos1) ∧
    (∀ (daf : Int) (addrlen : Nat) (hl uh : Bool) (bytes : List Nat) (fuel pos : Nat),
       bytes.length ≤ pos →
       frame_instrlist_aux daf addrlen hl uh bytes fuel pos = .ok []) ∧
    (∀ (daf : Int) (addrlen : Nat) (hl uh : Bool) (bytes : List Nat),
       frame_instrlist daf addrlen hl uh bytes ≠ .error .fuelExhausted) := by
  refine ⟨?_, ?_, ?_⟩
  · intro daf addrlen hl uh bytes pos i pos1 h
    exact decode_one_increase daf addrlen hl uh bytes pos i pos1 h
  · intro daf addrlen hl uh bytes fuel pos hp
    exact frame_instrlist_aux_exit daf addrlen hl uh bytes fuel pos hp
  · intro daf addrlen hl uh bytes
    exact frame_instrlist_aux_no_fuel daf addrlen hl uh bytes bytes.length 0 (by omega)

theorem frame_instrlist_terminates_witness :
    (0 : Nat) < 1 ∧ frame_instrlist_aux 1 8 true true [] 3 0 = .ok [] ∧
    frame_instrlist 1 8 true true [0x00] ≠ .error .fuelExhausted := by
  refine ⟨frame_instrlist_terminates.1 1 8 true true [0x00] 0 ⟨0, 0, 0, 0, none, 0⟩ 1
            (by decide),
          frame_instrlist_terminates.2.1 1 8 true true [] 3 0 (by decide),
          frame_instrlist_terminates.2.2 1 8 true true [0x00]⟩

theorem addNewRow_ne_deref (s : InterpState) (a : Nat) :
    addNewRow s a ≠ .error .emptyOptionalDeref := by
  unfold addNewRow; split <;> simp

theorem stepInstr_no_deref (initial : Option instrs_results) (i : frame_instr)
    (s : InterpState) (h1 : instrKey i ≠ DW_CFA_restore)
    (h2 : instrKey i ≠ DW_CFA_restore_extended) :
    stepInstr initial i s ≠ .error .emptyOptionalDeref := by
  intro hc
  unfold stepInstr at hc
  by_cases k1 : instrKey i = DW_CFA_set_loc
  · rw [if_pos k1] at hc
    exact addNewRow_ne_deref _ _ hc
  rw [if_neg k1] at hc
  by_cases k2 : instrKey i = DW_CFA_advance_loc ∨ instrKey i = DW_CFA_advance_loc1 ∨ instrKey i = DW_CFA_advance_loc2 ∨ instrKey i = DW_CFA_advance_loc4
  · rw [if_pos k2] at hc
    exact addNewRow_ne_deref _ _ hc
  rw [if_neg k2] at hc
  by_cases k3 : instrKey i = DW_CFA_def_cfa ∨ instrKey i = DW_CFA_def_cfa_sf
  · rw [if_pos k3] at hc
    simp at hc
  rw [if_neg k3] at hc
  by_cases k4 : instrKey i = DW_CFA_def_cfa_register
  · rw [if_pos k4] at hc
    cases hm4 : mapLookup DW_FRAME_CFA_COL3 s.current_row_defs <;> simp [hm4] at hc
  rw [if_neg k4] at hc
  by_cases k5 : instrKey i = DW_CFA_def_cfa_offset ∨ instrKey i = DW_CFA_def_cfa_offset_sf
  · rw [if_pos k5] at hc
    cases hm5 : mapLookup DW_FRAME_CFA_COL3 s.current_row_defs <;> simp [hm5] at hc
  rw [if_neg k5] at hc
  by_cases k6 : instrKey i = DW_CFA_def_cfa_expression
  · rw [if_pos k6] at hc
    simp at hc
  rw [if_neg k6] at hc
  by_cases k7 : instrKey i = DW_CFA_undefined
  · rw [if_pos k7] at hc
    simp at hc
  rw [if_neg k7] at hc
  by_cases k8 : instrKey i = DW_CFA_same_value
  · rw [if_pos k8] at hc
    simp at hc
  rw [if_neg k8] at hc
  by_cases k9 : instrKey i = DW_CFA_offset ∨ instrKey i = DW_CFA_offset_extended ∨ instrKey i = DW_CFA_offset_extended_sf
  · rw [if_pos k9] at hc
    simp at hc
  rw [if_neg k9] at hc
  by_cases k10 : instrKey i = DW_CFA_val_offset ∨ instrKey i = DW_CFA_val_offset_sf
  · rw [if_pos k10] at hc
    simp at hc
  rw [if_neg k10] at hc
  by_cases k11 : instrKey i = DW_CFA_register
  · rw [if_pos k11] at hc
    simp at hc
  rw [if_neg k11] at hc
  by_cases k12 : instrKey i = DW_CFA_expression
  · rw [if_pos k12] at hc
    simp at hc
  rw [if_neg k12] at hc
  by_cases k13 : instrKey i = DW_CFA_val_expression
  · rw [if_pos k13] at hc
    simp at hc
  rw [if_neg k13] at hc
  by_cases k14 : instrKey i = DW_CFA_restore ∨ instrKey i = DW_CFA_restore_extended
  · rcases k14 with hk | hk
    · exact h1 hk
    · exact h2 hk
  rw [if_neg k14] at hc
  by_cases k15 : instrKey i = DW_CFA_restore_state
  · rw [if_pos k15] at hc
    cases hr15 : s.remembered_row_defs <;> simp [hr15] at hc
  rw [if_neg k15] at hc
  by_cases k16 : instrKey i = DW_CFA_remember_state
  · rw [if_pos k16] at hc
    simp at hc
  rw [if_neg k16] at hc
  by_cases k17 : instrKey i = DW_CFA_nop
  · rw [if_pos k17] at hc
    simp at hc
  rw [if_neg k17] at hc
  simp at hc

theorem interpList_no_deref (initial : Option instrs_results) (il : List frame_instr)
    (hres : ∀ i ∈ il, instrKey i ≠ DW_CFA_restore ∧ instrKey i ≠ DW_CFA_restore_extended) :
    ∀ s, interpList initial il s ≠ .error .emptyOptionalDeref := by
  induction il with
  | nil => intro s h; simp [interpList] at h
  | cons i rest ih =>
    intro s h
    rw [interpList] at h
    split at h
    · exact ih (fun j hj => hres j (List.mem_cons_of_mem _ hj)) _ h
    · rename_i e heq
      injection h with h3
      obtain ⟨n1, n2⟩ := hres i (List.mem_cons_self _ _)
      exact stepInstr_no_deref initial i s n1 n2 (by rw [heq, h3])

/-- C10: the CIE-initial-instructions pass of `Fde::decode` runs the
interpreter with an empty `initial_instrs_results` optional, and the
restore/restore_extended handler dereferences that optional unconditionally
(frame.cpp:441).  (a) When the decoded CIE instruction list contains no
restore and no restore_extended instruction, the pass never performs the
empty-optional dereference; (b) the precondition is tight: executing any
restore or restore_extended instruction with the optional empty is exactly
the empty-optional dereference. -/
theorem cie_pass_optional_safety :
    (∀ (daf : Int) (addrlen : Nat) (hl uh : Bool) (bytes : List Nat) (s : InterpState)
       (il : List frame_instr),
       frame_instrlist daf addrlen hl uh bytes = .ok il →
       (∀ i ∈ il, instrKey i ≠ DW_CFA_restore ∧ instrKey i ≠ DW_CFA_restore_extended) →
       interp daf addrlen hl uh bytes none s ≠ .error .emptyOptionalDeref) ∧
    (∀ (i : frame_instr) (s : InterpState),
       instrKey i = DW_CFA_restore ∨ instrKey i = DW_CFA_restore_extended →
       stepInstr none i s = .error .emptyOptionalDeref) := by
  constructor
  · intro daf addrlen hl uh bytes s il hdec hres
    unfold interp
    rw [hdec]
    exact interpList_no_deref none il hres _
  · intro i s h
    rcases h with h | h
    · simp only [DW_CFA_restore] at h
      simp [stepInstr, h, DW_CFA_set_loc, DW_CFA_advance_loc, DW_CFA_advance_loc1,
        DW_CFA_advance_loc2, DW_CFA_advance_loc4, DW_CFA_def_cfa, DW_CFA_def_cfa_sf,
        DW_CFA_def_cfa_register, DW_CFA_def_cfa_offset, DW_CFA_def_cfa_offset_sf,
        DW_CFA_def_cfa_expression, DW_CFA_undefined, DW_CFA_same_value, DW_CFA_offset,
        DW_CFA_offset_extended, DW_CFA_offset_extended_sf, DW_CFA_val_offset,
        DW_CFA_val_offset_sf, DW_CFA_register, DW_CFA_expression, DW_CFA_val_expression,
        DW_CFA_restore, DW_CFA_restore_extended, DW_CFA_restore_state,
        DW_CFA_remember_state, DW_CFA_nop]
    · simp only [DW_CFA_restore_extended] at h
      simp [stepInstr, h, DW_CFA_set_loc, DW_CFA_advance_loc, DW_CFA_advance_loc1,
        DW_CFA_advance_loc2, DW_CFA_advance_loc4, DW_CFA_def_cfa, DW_CFA_def_cfa_sf,
        DW_CFA_def_cfa_register, DW_CFA_def_cfa_offset, DW_CFA_def_cfa_offset_sf,
        DW_CFA_def_cfa_expression, DW_CFA_undefined, DW_CFA_same_value, DW_CFA_offset,
        DW_CFA_offset_extended, DW_CFA_offset_extended_sf, DW_CFA_val_offset,
        DW_CFA_val_offset_sf, DW_CFA_register, DW_CFA_expression, DW_CFA_val_expression,
        DW_CFA_restore, DW_CFA_restore_extended, DW_CFA_restore_state,
        DW_CFA_remember_state, DW_CFA_nop]

theorem cie_pass_optional_safety_witness :
    interp 1 8 true true [0x00] none ⟨[], [], 0, []⟩ ≠ .error .emptyOptionalDeref ∧
    stepInstr none ⟨3, 0, 5, 0, none, 0⟩ ⟨[], [], 0, []⟩ = .error .emptyOptionalDeref := by
  constructor
  · exact cie_pass_optional_safety.1 1 8 true true [0x00] ⟨[], [], 0, []⟩
      [⟨0, 0, 0, 0, none, 0⟩] (by decide) (by decide)
  · exact cie_pass_optional_safety.2 ⟨3, 0, 5, 0, none, 0⟩ ⟨[], [], 0, []⟩
      (Or.inl (by decide))

end Dwarfpp
